import Mathlib

/-!
Shallow embedding of the autobridge calculator
(`src/js/ripple/autobridgecalculator.js`).

Amount values (arbitrary-precision decimals, treated by the spec as an
external exact-arithmetic primitive) are modelled as rationals `ℚ`.
JavaScript values stored in the nominal `TakerGets` / `TakerPays` fields of
an offer can be a plain number, a canonical text string (the result of
`Amount#to_text()`), an amount-JSON object with a `value` property, or an
`Amount` instance; we model this with the sum type `JVal`, keeping the
numeric content in every case.  The per-offer in-place mutations of the
JavaScript code are modelled by explicit state passing: `CalcState` carries
the two (deep-copied) offer lists and the owner-funds-leftover map, and the
`while` loop of `calculate` becomes the step function `calcStep` iterated by
`calcLoopAux`.
-/

namespace Autobridge

/-- JavaScript value stored in an offer's nominal amount fields: a number
(`jnum`), a canonical amount text string (`jstr`, the result of
`Amount#to_text()`), an amount-JSON object carrying a `value` property
(`jobj`), or an `Amount` instance (`jamt`).  Each constructor keeps the
numeric content of the amount. -/
inductive JVal where
  | jnum (q : ℚ)
  | jstr (q : ℚ)
  | jobj (q : ℚ)
  | jamt (q : ℚ)
  deriving DecidableEq

/-- Numeric content of a stored amount value (what `Amount.from_json` or the
spec's nominal-amount accessor extracts from the field). -/
def JVal.amountVal : JVal → ℚ
  | .jnum q => q
  | .jstr q => q
  | .jobj q => q
  | .jamt q => q

/-- JavaScript property access `x.value` on a nominal amount field: only an
amount-JSON object carries a `value` property; on a number, a string or an
`Amount` instance the access yields `undefined`, modelled as `none`. -/
def JVal.valueProp : JVal → Option ℚ
  | .jobj q => some q
  | _ => none

/-- JavaScript `typeof x === 'object'` for a stored amount value
(`assertValidLegOneOffer` requires this of `TakerPays`). -/
def JVal.isObjectJS : JVal → Bool
  | .jobj _ => true
  | .jamt _ => true
  | _ => false

/-- JavaScript `!isNaN(x)` for a stored amount value
(`assertValidLegOneOffer` requires this of `TakerGets`): numbers and numeric
strings coerce to a number, objects coerce to `NaN`. -/
def JVal.isNumericJS : JVal → Bool
  | .jnum _ => true
  | .jstr _ => true
  | _ => false

/-- An offer as manipulated by the calculator: the ledger-style nominal
fields `TakerGets` / `TakerPays` (JavaScript values, see `JVal`), the funded
amounts `taker_gets_funded` / `taker_pays_funded` (always canonical text in
the source, so only their numeric value is kept), the `is_fully_funded`
flag, and the transient `initTakerGetsFunded` snapshot attached by
`unclampLegOneOwnerFunds` (`none` when the property is absent). -/
structure Offer where
  Account : String
  TakerGets : JVal
  TakerPays : JVal
  taker_gets_funded : ℚ
  taker_pays_funded : ℚ
  is_fully_funded : Bool
  initTakerGetsFunded : Option ℚ := none
  deriving DecidableEq

instance : Inhabited Offer :=
  ⟨{ Account := "", TakerGets := .jnum 0, TakerPays := .jnum 0,
     taker_gets_funded := 0, taker_pays_funded := 0,
     is_fully_funded := false }⟩

/-- Shape check `assertValidLegOneOffer`: `TakerPays` must be an object and
`TakerGets` a valid number. -/
def isValidLegOneOffer (o : Offer) : Bool :=
  o.TakerPays.isObjectJS && o.TakerGets.isNumericJS

/-- Engine configuration: the two currencies given to the
`AutobridgeCalculator` constructor, plus the issuer fields `_issuerGets` /
`_issuerPays` read by `formatAutobridgedOffer`.  Modelled from the spec: the
issuer fields are assigned outside this source file; the spec states the
configuration `(outputCurrency, inputCurrency, outputIssuer, inputIssuer)`
is supplied at construction and immutable for the engine's lifetime.
Currencies are kept in their hex text form (`Currency#to_hex` is an
external encoder). -/
structure Config where
  currencyGets : String
  currencyPays : String
  issuerGets : String
  issuerPays : String

/-- The synthetic composite offer record built by `formatAutobridgedOffer`.
Amount texts are canonical, so only numeric values are kept; `BookDirectory`
is the order-preserving quality encoding (modelled from the spec as the
quality itself, since `convertOfferQualityToHex` is an external
order-preserving encoder). -/
structure AutobridgedOffer where
  takerGetsValue : ℚ
  takerGetsCurrency : String
  takerGetsIssuer : String
  takerPaysValue : ℚ
  takerPaysCurrency : String
  takerPaysIssuer : String
  quality : ℚ
  taker_gets_funded : ℚ
  taker_pays_funded : ℚ
  autobridged : Bool
  BookDirectory : ℚ
  deriving DecidableEq

/-- Modelled from the spec: `OrderBookUtils.getOfferTakerGetsFunded`, the
accessor returning the offer's funded taker-gets amount (the source file
only declares it in `orderbookutils.js`, which is not part of the sources). -/
def getOfferTakerGetsFunded (o : Offer) : ℚ := o.taker_gets_funded

/-- Modelled from the spec: `OrderBookUtils.getOfferTakerPaysFunded`, the
accessor returning the offer's funded taker-pays amount. -/
def getOfferTakerPaysFunded (o : Offer) : ℚ := o.taker_pays_funded

/-- Modelled from the spec: `OrderBookUtils.getOfferTakerGets`, the accessor
returning the offer's nominal taker-gets amount. -/
def getOfferTakerGets (o : Offer) : ℚ := o.TakerGets.amountVal

/-- Modelled from the spec: `OrderBookUtils.getOfferQuality`, the normalized
quality of an offer, `takerPays / takerGets` (the reference-currency
argument only performs cross-currency decimal normalization, which the spec
treats as external, so it is ignored here). -/
def getOfferQuality (o : Offer) (_currencyGets : String) : ℚ :=
  o.TakerPays.amountVal / o.TakerGets.amountVal

/-- The method `setLegOneTakerGetsFunded`: store the funded taker-gets text,
derive `taker_pays_funded` by multiplying with the offer quality, then set
`is_fully_funded` when `taker_gets_funded === TakerGets.value` holds.  The
strict equality compares the canonical funded text with the `value` property
of the nominal `TakerGets` field (see `JVal.valueProp`); the texts compared
are canonical, so text equality coincides with value equality when the
property exists. -/
def setLegOneTakerGetsFunded (cfg : Config) (o : Offer) (tgf : ℚ) : Offer :=
  let o1 : Offer :=
    { o with
      taker_gets_funded := tgf
      taker_pays_funded := tgf * getOfferQuality o cfg.currencyGets }
  if some tgf = o.TakerGets.valueProp then
    { o1 with is_fully_funded := true }
  else o1

/-- The method `setLegOneTakerGets`: store the reduced nominal taker-gets as
canonical text (`to_text`) and the recomputed nominal taker-pays as the raw
`Amount` product with the offer quality (the source applies no `to_text`
to it). -/
def setLegOneTakerGets (cfg : Config) (o : Offer) (tg : ℚ) : Offer :=
  let q := getOfferQuality o cfg.currencyGets
  { o with TakerGets := .jstr tg, TakerPays := .jamt (tg * q) }

/-- The method `unclampLegOneOwnerFunds`: snapshot the current funded amount
into `initTakerGetsFunded`, then set the funded amount to the full nominal
taker-gets. -/
def unclampLegOneOwnerFunds (cfg : Config) (o : Offer) : Offer :=
  let o1 := { o with initTakerGetsFunded := some o.taker_gets_funded }
  setLegOneTakerGetsFunded cfg o1 (getOfferTakerGets o1)

/-- The leftover-funds ledger `_ownerFundsLeftover`, modelled as a total map
from account to amount with default `0` (`getLeftoverOwnerFunds` returns a
normalized zero when no entry exists, so only the values are observable). -/
abbrev Leftover : Type := String → ℚ

/-- The method `clampLegOneOwnerFunds`: compare the (possibly reduced)
nominal taker-gets against the `initTakerGetsFunded` snapshot; restore the
snapshot when the nominal amount is still larger, otherwise clamp the funded
amount to the nominal amount and add the difference to the owner's leftover
entry.  The snapshot field is read directly in the source (it is always
present there, because the method only runs after `unclampLegOneOwnerFunds`);
an absent snapshot is modelled as `0`. -/
def clampLegOneOwnerFunds (cfg : Config) (lf : Leftover) (o : Offer) :
    Offer × Leftover :=
  let takerGets := getOfferTakerGets o
  let init := o.initTakerGetsFunded.getD 0
  if init < takerGets then
    (setLegOneTakerGetsFunded cfg o init, lf)
  else
    let updatedLeftover := init - takerGets
    (setLegOneTakerGetsFunded cfg o takerGets,
     Function.update lf o.Account (lf o.Account + updatedLeftover))

/-- The method `adjustLegOneFundedAmount`: add the owner's leftover to the
funded amount; fully fund the offer and keep the remainder as leftover when
the sum covers the nominal taker-gets, otherwise fund with the whole sum and
reset the owner's leftover to zero. -/
def adjustLegOneFundedAmount (cfg : Config) (lf : Leftover) (o : Offer) :
    Offer × Leftover :=
  let fundedSum := getOfferTakerGetsFunded o + lf o.Account
  if getOfferTakerGets o ≤ fundedSum then
    let legOneTakerGets := getOfferTakerGets o
    let updatedLeftover := fundedSum - legOneTakerGets
    (setLegOneTakerGetsFunded cfg o legOneTakerGets,
     Function.update lf o.Account updatedLeftover)
  else
    (setLegOneTakerGetsFunded cfg o fundedSum,
     Function.update lf o.Account 0)

/-- The method `formatAutobridgedOffer`: compute `quality = takerPays /
takerGets` and build the synthetic record with the configured currencies and
issuers, funded amounts mirroring the nominal values, the `autobridged`
marker and the quality-derived book directory. -/
def formatAutobridgedOffer (cfg : Config) (takerGets takerPays : ℚ) :
    AutobridgedOffer :=
  let quality := takerPays / takerGets
  { takerGetsValue := takerGets
    takerGetsCurrency := cfg.currencyGets
    takerGetsIssuer := cfg.issuerGets
    takerPaysValue := takerPays
    takerPaysCurrency := cfg.currencyPays
    takerPaysIssuer := cfg.issuerPays
    quality := quality
    taker_gets_funded := takerGets
    taker_pays_funded := takerPays
    autobridged := true
    BookDirectory := quality }

/-- The method `getAutobridgedOfferWithClampedLegOne` (`g1 > p2` case):
emit `takerGets = L2.taker_gets_funded`, `takerPays = p2 * quality(L1)`;
with the same owner, shrink leg one's nominal taker-gets by `p2` and
reapply the clamp, otherwise reduce leg one's funded amount by `p2`.
Returns the formatted offer, the updated leg-one offer and the updated
leftover ledger. -/
def getAutobridgedOfferWithClampedLegOne (cfg : Config) (lf : Leftover)
    (legOneOffer legTwoOffer : Offer) :
    AutobridgedOffer × Offer × Leftover :=
  let legOneTakerGetsFunded := getOfferTakerGetsFunded legOneOffer
  let legTwoTakerPaysFunded := getOfferTakerPaysFunded legTwoOffer
  let legOneQuality := getOfferQuality legOneOffer cfg.currencyGets
  let autobridgedTakerGets := getOfferTakerGetsFunded legTwoOffer
  let autobridgedTakerPays := legTwoTakerPaysFunded * legOneQuality
  if legOneOffer.Account = legTwoOffer.Account then
    let legOneTakerGets := getOfferTakerGets legOneOffer
    let updatedTakerGets := legOneTakerGets - legTwoTakerPaysFunded
    let o1 := setLegOneTakerGets cfg legOneOffer updatedTakerGets
    let r := clampLegOneOwnerFunds cfg lf o1
    (formatAutobridgedOffer cfg autobridgedTakerGets autobridgedTakerPays,
     r.1, r.2)
  else
    let updatedTakerGetsFunded :=
      legOneTakerGetsFunded - legTwoTakerPaysFunded
    (formatAutobridgedOffer cfg autobridgedTakerGets autobridgedTakerPays,
     setLegOneTakerGetsFunded cfg legOneOffer updatedTakerGetsFunded, lf)

/-- The method `getAutobridgedOfferWithClampedLegTwo` (`p2 > g1` case):
emit `takerGets = g1 / quality(L2)`, `takerPays = L1.taker_pays_funded`, and
reduce leg two's funded amounts by the emitted taker-gets and by `g1`.
Returns the formatted offer and the updated leg-two offer. -/
def getAutobridgedOfferWithClampedLegTwo (cfg : Config)
    (legOneOffer legTwoOffer : Offer) : AutobridgedOffer × Offer :=
  let legOneTakerGetsFunded := getOfferTakerGetsFunded legOneOffer
  let legTwoTakerPaysFunded := getOfferTakerPaysFunded legTwoOffer
  let legTwoQuality := getOfferQuality legTwoOffer cfg.currencyGets
  let autobridgedTakerGets := legOneTakerGetsFunded / legTwoQuality
  let autobridgedTakerPays := getOfferTakerPaysFunded legOneOffer
  let legTwoOffer1 :=
    { legTwoOffer with
      taker_gets_funded :=
        getOfferTakerGetsFunded legTwoOffer - autobridgedTakerGets
      taker_pays_funded := legTwoTakerPaysFunded - legOneTakerGetsFunded }
  (formatAutobridgedOffer cfg autobridgedTakerGets autobridgedTakerPays,
   legTwoOffer1)

/-- The method `getAutobridgedOfferWithoutClamps` (`g1 == p2` case): emit
`takerGets = L2.taker_gets_funded`, `takerPays = L1.taker_pays_funded`. -/
def getAutobridgedOfferWithoutClamps (cfg : Config)
    (legOneOffer legTwoOffer : Offer) : AutobridgedOffer :=
  formatAutobridgedOffer cfg (getOfferTakerGetsFunded legTwoOffer)
    (getOfferTakerPaysFunded legOneOffer)

/-- Mutable state of one `calculate()` run: the two deep-copied offer lists
(mutated in place by the source, hence threaded here) and the
leftover-funds ledger. -/
structure CalcState where
  legOne : List Offer
  legTwo : List Offer
  leftover : Leftover

/-- Loop state of `calculate()`: the calculator state plus the two pointers
`legOnePointer` and `legTwoPointer`. -/
structure LoopState where
  st : CalcState
  i : ℕ
  j : ℕ

/-- Lines 50-54 of `calculate`: with a common owner, unclamp the leg-one
offer; otherwise, when the leg-one offer is not fully funded and the owner's
leftover is nonzero, top it up from the leftover.  The leg-one offer at
index `i` is mutated in place, modelled by `List.set`. -/
def applyFundingPrep (cfg : Config) (st : CalcState) (i : ℕ)
    (legOneOffer legTwoOffer : Offer) : CalcState :=
  if legOneOffer.Account = legTwoOffer.Account then
    { st with
      legOne := st.legOne.set i (unclampLegOneOwnerFunds cfg legOneOffer) }
  else if ¬legOneOffer.is_fully_funded ∧
      st.leftover legOneOffer.Account ≠ 0 then
    let r := adjustLegOneFundedAmount cfg st.leftover legOneOffer
    { st with legOne := st.legOne.set i r.1, leftover := r.2 }
  else st

/-- One iteration of the `while` loop of `calculate` (lines 44-96): when
both pointers reference a live offer, run the funding preparation, re-read
the (possibly mutated) leg-one offer, compare `g1` with `p2` and dispatch to
the zero-skip or clamp cases; returns the emitted offer (when any) and the
next loop state.  Outside the loop condition the state is left unchanged. -/
def calcStep (cfg : Config) (s : LoopState) :
    Option AutobridgedOffer × LoopState :=
  if s.i < s.st.legOne.length ∧ s.j < s.st.legTwo.length then
    let legOneOffer0 := s.st.legOne.getD s.i default
    let legTwoOffer := s.st.legTwo.getD s.j default
    let st1 := applyFundingPrep cfg s.st s.i legOneOffer0 legTwoOffer
    let legOneOffer := st1.legOne.getD s.i default
    let legOneTakerGetsFunded := getOfferTakerGetsFunded legOneOffer
    let legTwoTakerPaysFunded := getOfferTakerPaysFunded legTwoOffer
    if legOneTakerGetsFunded = 0 then
      (none, ⟨st1, s.i + 1, s.j⟩)
    else if legTwoTakerPaysFunded = 0 then
      (none, ⟨st1, s.i, s.j + 1⟩)
    else if legTwoTakerPaysFunded < legOneTakerGetsFunded then
      let r := getAutobridgedOfferWithClampedLegOne cfg st1.leftover
        legOneOffer legTwoOffer
      (some r.1,
       ⟨{ st1 with legOne := st1.legOne.set s.i r.2.1, leftover := r.2.2 },
        s.i, s.j + 1⟩)
    else if legOneTakerGetsFunded < legTwoTakerPaysFunded then
      let r := getAutobridgedOfferWithClampedLegTwo cfg legOneOffer
        legTwoOffer
      (some r.1,
       ⟨{ st1 with legTwo := st1.legTwo.set s.j r.2 }, s.i + 1, s.j⟩)
    else
      (some (getAutobridgedOfferWithoutClamps cfg legOneOffer legTwoOffer),
       ⟨st1, s.i + 1, s.j + 1⟩)
  else (none, s)

/-- The `while` loop of `calculate`, iterated with an explicit fuel bound.
Every in-range iteration strictly advances a pointer (`calcStep_measure_lt`
below), so fuel `legOne.length + legTwo.length` never runs out before the
loop condition fails; `calcLoopAux_fuel_irrelevant` makes this precise. -/
def calcLoopAux (cfg : Config) : ℕ → LoopState → List AutobridgedOffer
  | 0, _ => []
  | fuel + 1, s =>
    ((calcStep cfg s).1.toList) ++ calcLoopAux cfg fuel (calcStep cfg s).2

/-- Initial loop state of one `calculate()` run: pointers at zero and the
leftover ledger cleared (`clearOwnerFundsLeftover`). -/
def initState (legOneOffers legTwoOffers : List Offer) : LoopState :=
  ⟨⟨legOneOffers, legTwoOffers, fun _ => 0⟩, 0, 0⟩

/-- The method `calculate`: run the merge loop from the cleared initial
state and return the ordered list of autobridged offers. -/
def calculate (cfg : Config) (legOneOffers legTwoOffers : List Offer) :
    List AutobridgedOffer :=
  calcLoopAux cfg (legOneOffers.length + legTwoOffers.length)
    (initState legOneOffers legTwoOffers)

/-! Concrete example data used to exercise the operations on closed inputs.
Leg-one offers sell the bridge asset (numeric `TakerGets`, amount-JSON
`TakerPays` in the input currency); leg-two offers sell the output currency
against the bridge asset. -/

def exCfg : Config :=
  { currencyGets := "USD", currencyPays := "EUR",
    issuerGets := "issuerOut", issuerPays := "issuerIn" }

def c1LegOne : Offer :=
  { Account := "alice", TakerGets := .jnum 100, TakerPays := .jobj 50,
    taker_gets_funded := 100, taker_pays_funded := 50,
    is_fully_funded := true }

def c1LegTwo : Offer :=
  { Account := "bob", TakerGets := .jobj 40, TakerPays := .jnum 80,
    taker_gets_funded := 40, taker_pays_funded := 80,
    is_fully_funded := true }

def c2LegOne : Offer :=
  { Account := "ann", TakerGets := .jnum 30, TakerPays := .jobj 15,
    taker_gets_funded := 30, taker_pays_funded := 15,
    is_fully_funded := true }

def c2LegTwo : Offer :=
  { Account := "ben", TakerGets := .jobj 50, TakerPays := .jnum 100,
    taker_gets_funded := 50, taker_pays_funded := 100,
    is_fully_funded := true }

def c3Offer : Offer :=
  { Account := "carl", TakerGets := .jnum 100, TakerPays := .jobj 50,
    taker_gets_funded := 100, taker_pays_funded := 50,
    is_fully_funded := true }

def c4LegOne : Offer :=
  { Account := "carol", TakerGets := .jnum 10, TakerPays := .jobj 5,
    taker_gets_funded := 10, taker_pays_funded := 5,
    is_fully_funded := true }

def c4LegTwo : Offer :=
  { Account := "dave", TakerGets := .jobj 7, TakerPays := .jnum 10,
    taker_gets_funded := 7, taker_pays_funded := 10,
    is_fully_funded := true }

def c5Offer : Offer :=
  { Account := "erin", TakerGets := .jnum 20, TakerPays := .jobj 10,
    taker_gets_funded := 20, taker_pays_funded := 10,
    is_fully_funded := false, initTakerGetsFunded := some 30 }

def c5lf : Leftover := fun _ => 0

def c6Offer : Offer :=
  { Account := "gina", TakerGets := .jnum 50, TakerPays := .jobj 25,
    taker_gets_funded := 10, taker_pays_funded := 5,
    is_fully_funded := false }

def c6lf : Leftover := fun _ => 60

def c8Offer : Offer :=
  { Account := "hugo", TakerGets := .jobj 3, TakerPays := .jnum 6,
    taker_gets_funded := 3, taker_pays_funded := 6,
    is_fully_funded := true }

def c9LegOne : Offer :=
  { Account := "accountA", TakerGets := .jnum 100, TakerPays := .jobj 50,
    taker_gets_funded := 100, taker_pays_funded := 50,
    is_fully_funded := true }

def c9LegTwo : Offer :=
  { Account := "accountB", TakerGets := .jobj 40, TakerPays := .jnum 100,
    taker_gets_funded := 40, taker_pays_funded := 100,
    is_fully_funded := true }

/-- Expected composite offer of the spec's equal-case scenario: 40 output
for 50 input, hence quality `50 / 40 = 5 / 4 = 1.25`. -/
def c9Expected : AutobridgedOffer := formatAutobridgedOffer exCfg 40 50

def c10LegOne : Offer :=
  { Account := "henry", TakerGets := .jnum 100, TakerPays := .jobj 50,
    taker_gets_funded := 100, taker_pays_funded := 50,
    is_fully_funded := true }

def c10LegTwo : Offer :=
  { Account := "henry", TakerGets := .jobj 30, TakerPays := .jnum 60,
    taker_gets_funded := 30, taker_pays_funded := 60,
    is_fully_funded := true }

def c10lf : Leftover := fun _ => 0

/-! Helper lemmas about the primitive operations. -/

theorem setLegOneTakerGetsFunded_Account (cfg : Config) (o : Offer)
    (tgf : ℚ) : (setLegOneTakerGetsFunded cfg o tgf).Account = o.Account := by
  unfold setLegOneTakerGetsFunded
  split <;> rfl

theorem setLegOneTakerGetsFunded_tgf (cfg : Config) (o : Offer) (tgf : ℚ) :
    (setLegOneTakerGetsFunded cfg o tgf).taker_gets_funded = tgf := by
  unfold setLegOneTakerGetsFunded
  split <;> rfl

theorem setLegOneTakerGetsFunded_tpf (cfg : Config) (o : Offer) (tgf : ℚ) :
    (setLegOneTakerGetsFunded cfg o tgf).taker_pays_funded =
      tgf * getOfferQuality o cfg.currencyGets := by
  unfold setLegOneTakerGetsFunded
  split <;> rfl

theorem setLegOneTakerGetsFunded_TakerGets (cfg : Config) (o : Offer)
    (tgf : ℚ) :
    (setLegOneTakerGetsFunded cfg o tgf).TakerGets = o.TakerGets := by
  unfold setLegOneTakerGetsFunded
  split <;> rfl

theorem setLegOneTakerGetsFunded_TakerPays (cfg : Config) (o : Offer)
    (tgf : ℚ) :
    (setLegOneTakerGetsFunded cfg o tgf).TakerPays = o.TakerPays := by
  unfold setLegOneTakerGetsFunded
  split <;> rfl

theorem unclampLegOneOwnerFunds_Account (cfg : Config) (o : Offer) :
    (unclampLegOneOwnerFunds cfg o).Account = o.Account := by
  unfold unclampLegOneOwnerFunds
  rw [setLegOneTakerGetsFunded_Account]

theorem adjustLegOneFundedAmount_Account (cfg : Config) (lf : Leftover)
    (o : Offer) :
    (adjustLegOneFundedAmount cfg lf o).1.Account = o.Account := by
  unfold adjustLegOneFundedAmount
  dsimp only
  split <;> simp [setLegOneTakerGetsFunded_Account]

theorem applyFundingPrep_legTwo (cfg : Config) (st : CalcState) (i : ℕ)
    (L1 L2 : Offer) :
    (applyFundingPrep cfg st i L1 L2).legTwo = st.legTwo := by
  unfold applyFundingPrep
  split
  · rfl
  · split <;> rfl

theorem applyFundingPrep_legOne_length (cfg : Config) (st : CalcState)
    (i : ℕ) (L1 L2 : Offer) :
    (applyFundingPrep cfg st i L1 L2).legOne.length = st.legOne.length := by
  unfold applyFundingPrep
  split
  · simp
  · split <;> simp

theorem getD_set_self (l : List Offer) (i : ℕ) (x d : Offer)
    (h : i < l.length) : (l.set i x).getD i d = x := by
  rw [List.getD_eq_getElem _ _ (by simpa using h)]
  simp

theorem calcStep_legOne_length (cfg : Config) (s : LoopState) :
    ((calcStep cfg s).2).st.legOne.length = s.st.legOne.length := by
  unfold calcStep
  split
  · dsimp only
    split
    · simp [applyFundingPrep_legOne_length]
    · split
      · simp [applyFundingPrep_legOne_length]
      · split
        · simp [applyFundingPrep_legOne_length]
        · split <;> simp [applyFundingPrep_legOne_length]
  · rfl

theorem calcStep_legTwo_length (cfg : Config) (s : LoopState) :
    ((calcStep cfg s).2).st.legTwo.length = s.st.legTwo.length := by
  unfold calcStep
  split
  · dsimp only
    split
    · simp [applyFundingPrep_legTwo]
    · split
      · simp [applyFundingPrep_legTwo]
      · split
        · simp [applyFundingPrep_legTwo]
        · split <;> simp [applyFundingPrep_legTwo]
  · rfl

theorem calcStep_pointers (cfg : Config) (s : LoopState)
    (h : s.i < s.st.legOne.length ∧ s.j < s.st.legTwo.length) :
    s.i ≤ ((calcStep cfg s).2).i ∧ s.j ≤ ((calcStep cfg s).2).j ∧
      s.i + s.j < ((calcStep cfg s).2).i + ((calcStep cfg s).2).j := by
  unfold calcStep
  rw [if_pos h]
  dsimp only
  repeat' split
  all_goals dsimp only
  all_goals omega

theorem calcStep_measure_lt (cfg : Config) (s : LoopState)
    (h : s.i < s.st.legOne.length ∧ s.j < s.st.legTwo.length) :
    ((calcStep cfg s).2).st.legOne.length - ((calcStep cfg s).2).i +
        (((calcStep cfg s).2).st.legTwo.length - ((calcStep cfg s).2).j) <
      s.st.legOne.length - s.i + (s.st.legTwo.length - s.j) := by
  have h1 := calcStep_legOne_length cfg s
  have h2 := calcStep_legTwo_length cfg s
  have h3 := calcStep_pointers cfg s h
  omega

theorem calcStep_exhausted (cfg : Config) (s : LoopState)
    (h : ¬(s.i < s.st.legOne.length ∧ s.j < s.st.legTwo.length)) :
    calcStep cfg s = (none, s) := by
  unfold calcStep
  rw [if_neg h]

theorem calcLoopAux_exhausted (cfg : Config) :
    ∀ (fuel : ℕ) (s : LoopState),
      s.st.legOne.length ≤ s.i ∨ s.st.legTwo.length ≤ s.j →
      calcLoopAux cfg fuel s = [] := by
  intro fuel
  induction fuel with
  | zero => intro s _; rfl
  | succ fuel ih =>
    intro s hs
    unfold calcLoopAux
    rw [calcStep_exhausted cfg s (by omega)]
    simpa using ih s hs

theorem calcLoopAux_length_le (cfg : Config) :
    ∀ (fuel : ℕ) (s : LoopState),
      (calcLoopAux cfg fuel s).length ≤
        s.st.legOne.length - s.i + (s.st.legTwo.length - s.j) := by
  intro fuel
  induction fuel with
  | zero => intro s; simp [calcLoopAux]
  | succ fuel ih =>
    intro s
    unfold calcLoopAux
    by_cases h : s.i < s.st.legOne.length ∧ s.j < s.st.legTwo.length
    · have hlen : ((calcStep cfg s).1.toList).length ≤ 1 := by
        cases (calcStep cfg s).1 <;> simp
      have hrec := ih (calcStep cfg s).2
      have hlt := calcStep_measure_lt cfg s h
      rw [List.length_append]
      omega
    · rw [calcStep_exhausted cfg s h]
      have hrec := ih s
      simpa using hrec

theorem calcLoopAux_fuel_irrelevant (cfg : Config) :
    ∀ (f1 f2 : ℕ) (s : LoopState),
      s.st.legOne.length - s.i + (s.st.legTwo.length - s.j) ≤ f1 →
      s.st.legOne.length - s.i + (s.st.legTwo.length - s.j) ≤ f2 →
      calcLoopAux cfg f1 s = calcLoopAux cfg f2 s := by
  intro f1
  induction f1 with
  | zero =>
    intro f2 s h1 _
    rw [calcLoopAux_exhausted cfg 0 s (by omega),
      calcLoopAux_exhausted cfg f2 s (by omega)]
  | succ f1 ih =>
    intro f2 s h1 h2
    match f2 with
    | 0 =>
      rw [calcLoopAux_exhausted cfg (f1 + 1) s (by omega),
        calcLoopAux_exhausted cfg 0 s (by omega)]
    | f2 + 1 =>
      by_cases h : s.i < s.st.legOne.length ∧ s.j < s.st.legTwo.length
      · have hlt := calcStep_measure_lt cfg s h
        have h1' := calcStep_legOne_length cfg s
        have h2' := calcStep_legTwo_length cfg s
        unfold calcLoopAux
        rw [ih f2 (calcStep cfg s).2 (by omega) (by omega)]
      · rw [calcLoopAux_exhausted cfg (f1 + 1) s (by omega),
          calcLoopAux_exhausted cfg (f2 + 1) s (by omega)]

theorem getAutobridgedOfferWithClampedLegOne_fst (cfg : Config)
    (lf : Leftover) (legOneOffer legTwoOffer : Offer) :
    (getAutobridgedOfferWithClampedLegOne cfg lf legOneOffer legTwoOffer).1 =
      formatAutobridgedOffer cfg (getOfferTakerGetsFunded legTwoOffer)
        (getOfferTakerPaysFunded legTwoOffer *
          getOfferQuality legOneOffer cfg.currencyGets) := by
  unfold getAutobridgedOfferWithClampedLegOne
  dsimp only
  split <;> rfl

theorem getAutobridgedOfferWithClampedLegTwo_fst (cfg : Config)
    (legOneOffer legTwoOffer : Offer) :
    (getAutobridgedOfferWithClampedLegTwo cfg legOneOffer legTwoOffer).1 =
      formatAutobridgedOffer cfg
        (getOfferTakerGetsFunded legOneOffer /
          getOfferQuality legTwoOffer cfg.currencyGets)
        (getOfferTakerPaysFunded legOneOffer) := rfl

theorem calcStep_emit_format (cfg : Config) (s : LoopState)
    (ab : AutobridgedOffer) (h : (calcStep cfg s).1 = some ab) :
    ∃ g p, ab = formatAutobridgedOffer cfg g p := by
  unfold calcStep at h
  split at h
  · dsimp only at h
    split at h
    · simp at h
    · split at h
      · simp at h
      · split at h
        · dsimp only at h
          rw [Option.some_inj, getAutobridgedOfferWithClampedLegOne_fst]
            at h
          exact ⟨_, _, h.symm⟩
        · split at h
          · dsimp only at h
            rw [Option.some_inj, getAutobridgedOfferWithClampedLegTwo_fst]
              at h
            exact ⟨_, _, h.symm⟩
          · dsimp only at h
            rw [Option.some_inj] at h
            unfold getAutobridgedOfferWithoutClamps at h
            exact ⟨_, _, h.symm⟩
  · simp at h

theorem calcLoopAux_mem_format (cfg : Config) :
    ∀ (fuel : ℕ) (s : LoopState) (ab : AutobridgedOffer),
      ab ∈ calcLoopAux cfg fuel s →
      ∃ g p, ab = formatAutobridgedOffer cfg g p := by
  intro fuel
  induction fuel with
  | zero => intro s ab hab; simp [calcLoopAux] at hab
  | succ fuel ih =>
    intro s ab hab
    unfold calcLoopAux at hab
    rw [List.mem_append] at hab
    rcases hab with hab | hab
    · rw [Option.mem_toList, Option.mem_def] at hab
      exact calcStep_emit_format cfg s ab hab
    · exact ih _ ab hab

theorem clampLegOneOwnerFunds_leftover_mono (cfg : Config) (lf : Leftover)
    (o : Offer) (a : String) :
    lf a ≤ (clampLegOneOwnerFunds cfg lf o).2 a := by
  unfold clampLegOneOwnerFunds
  dsimp only
  split
  · exact le_refl _
  · rename_i hle
    dsimp only
    rw [Function.update_apply]
    split
    · rename_i ha
      subst ha
      have : (0 : ℚ) ≤ o.initTakerGetsFunded.getD 0 - getOfferTakerGets o :=
        sub_nonneg.mpr (not_lt.mp hle)
      linarith
    · exact le_refl _

theorem adjustLegOneFundedAmount_leftover_nonneg (cfg : Config)
    (lf : Leftover) (o : Offer) (h : ∀ a, 0 ≤ lf a) :
    ∀ a, 0 ≤ (adjustLegOneFundedAmount cfg lf o).2 a := by
  intro a
  unfold adjustLegOneFundedAmount
  dsimp only
  split
  · rename_i hge
    dsimp only
    rw [Function.update_apply]
    split
    · exact sub_nonneg.mpr hge
    · exact h a
  · dsimp only
    rw [Function.update_apply]
    split
    · exact le_refl _
    · exact h a

theorem applyFundingPrep_leftover_nonneg (cfg : Config) (st : CalcState)
    (i : ℕ) (L1 L2 : Offer) (h : ∀ a, 0 ≤ st.leftover a) :
    ∀ a, 0 ≤ (applyFundingPrep cfg st i L1 L2).leftover a := by
  unfold applyFundingPrep
  split
  · exact h
  · split
    · exact adjustLegOneFundedAmount_leftover_nonneg cfg st.leftover L1 h
    · exact h

theorem getAutobridgedOfferWithClampedLegOne_leftover_nonneg (cfg : Config)
    (lf : Leftover) (L1 L2 : Offer) (h : ∀ a, 0 ≤ lf a) :
    ∀ a, 0 ≤ (getAutobridgedOfferWithClampedLegOne cfg lf L1 L2).2.2 a := by
  intro a
  unfold getAutobridgedOfferWithClampedLegOne
  dsimp only
  split
  · exact le_trans (h a) (clampLegOneOwnerFunds_leftover_mono cfg lf _ a)
  · exact h a

theorem calcStep_leftover_nonneg (cfg : Config) (s : LoopState)
    (h : ∀ a, 0 ≤ s.st.leftover a) :
    ∀ a, 0 ≤ ((calcStep cfg s).2).st.leftover a := by
  unfold calcStep
  split
  · dsimp only
    have hprep := applyFundingPrep_leftover_nonneg cfg s.st s.i
      (s.st.legOne.getD s.i default) (s.st.legTwo.getD s.j default) h
    split
    · exact hprep
    · split
      · exact hprep
      · split
        · exact getAutobridgedOfferWithClampedLegOne_leftover_nonneg cfg _
            _ _ hprep
        · split
          · exact hprep
          · exact hprep
  · exact h

theorem applyFundingPrep_getD (cfg : Config) (st : CalcState) (i : ℕ)
    (L1 L2 : Offer) (hi : i < st.legOne.length)
    (hL1 : st.legOne.getD i default = L1) :
    (applyFundingPrep cfg st i L1 L2).legOne.getD i default =
      if L1.Account = L2.Account then unclampLegOneOwnerFunds cfg L1
      else if ¬L1.is_fully_funded ∧ st.leftover L1.Account ≠ 0 then
        (adjustLegOneFundedAmount cfg st.leftover L1).1
      else L1 := by
  unfold applyFundingPrep
  split
  · rw [getD_set_self _ _ _ _ hi]
  · split
    · dsimp only
      rw [getD_set_self _ _ _ _ hi]
    · rw [hL1]

theorem applyFundingPrep_getD_Account (cfg : Config) (st : CalcState)
    (i : ℕ) (L1 L2 : Offer) (hi : i < st.legOne.length)
    (hL1 : st.legOne.getD i default = L1) :
    ((applyFundingPrep cfg st i L1 L2).legOne.getD i default).Account =
      L1.Account := by
  rw [applyFundingPrep_getD cfg st i L1 L2 hi hL1]
  split
  · rw [unclampLegOneOwnerFunds_Account]
  · split
    · rw [adjustLegOneFundedAmount_Account]
    · rfl

theorem clampLegOneOwnerFunds_fst_TakerGets (cfg : Config) (lf : Leftover)
    (o : Offer) :
    (clampLegOneOwnerFunds cfg lf o).1.TakerGets = o.TakerGets := by
  unfold clampLegOneOwnerFunds
  dsimp only
  split <;> rw [setLegOneTakerGetsFunded_TakerGets]

theorem clampLegOneOwnerFunds_fst_TakerPays (cfg : Config) (lf : Leftover)
    (o : Offer) :
    (clampLegOneOwnerFunds cfg lf o).1.TakerPays = o.TakerPays := by
  unfold clampLegOneOwnerFunds
  dsimp only
  split <;> rw [setLegOneTakerGetsFunded_TakerPays]

/-! Claim theorems. -/

/-- C1: in every `calculate()` iteration where both current offers are live,
leg one's funded bridge output `g1` and leg two's funded bridge input `p2`
are both nonzero, `g1 > p2`, and the two offers have different owners, the
engine emits a composite offer with `takerGets` equal to leg two's full
funded taker-gets and `takerPays` equal to `p2` multiplied by leg one's
quality, reduces leg one's `takerGetsFunded` by `p2` (the leg-one pointer
stays for the next iteration), and advances only the leg-two pointer. -/
theorem calc_clamped_leg_one_different_owner_step (cfg : Config)
    (s : LoopState) (L1 L2 L1' : Offer)
    (hi : s.i < s.st.legOne.length) (hj : s.j < s.st.legTwo.length)
    (hL1 : s.st.legOne.getD s.i default = L1)
    (hL2 : s.st.legTwo.getD s.j default = L2)
    (hacct : L1.Account ≠ L2.Account)
    (hL1' : (applyFundingPrep cfg s.st s.i L1 L2).legOne.getD s.i default
      = L1')
    (hg1 : getOfferTakerGetsFunded L1' ≠ 0)
    (hp2 : getOfferTakerPaysFunded L2 ≠ 0)
    (hgt : getOfferTakerPaysFunded L2 < getOfferTakerGetsFunded L1') :
    calcStep cfg s =
      (some (formatAutobridgedOffer cfg (getOfferTakerGetsFunded L2)
          (getOfferTakerPaysFunded L2 *
            getOfferQuality L1' cfg.currencyGets)),
       ⟨{ applyFundingPrep cfg s.st s.i L1 L2 with
            legOne := (applyFundingPrep cfg s.st s.i L1 L2).legOne.set s.i
              (setLegOneTakerGetsFunded cfg L1'
                (getOfferTakerGetsFunded L1' -
                  getOfferTakerPaysFunded L2)) },
        s.i, s.j + 1⟩) ∧
    (setLegOneTakerGetsFunded cfg L1'
        (getOfferTakerGetsFunded L1' -
          getOfferTakerPaysFunded L2)).taker_gets_funded =
      getOfferTakerGetsFunded L1' - getOfferTakerPaysFunded L2 := by
  have hacct' : L1'.Account ≠ L2.Account := by
    rw [← hL1', applyFundingPrep_getD_Account cfg s.st s.i L1 L2 hi hL1]
    exact hacct
  constructor
  · unfold calcStep
    rw [if_pos ⟨hi, hj⟩]
    dsimp only
    rw [hL1, hL2, hL1']
    rw [if_neg hg1, if_neg hp2, if_pos hgt]
    unfold getAutobridgedOfferWithClampedLegOne
    dsimp only
    rw [if_neg hacct']
  · exact setLegOneTakerGetsFunded_tgf cfg L1' _

/-- Witness for C1 at a concrete input: `alice` sells 100 bridge for 50
input (fully funded), `bob` buys 80 bridge paying 40 output, so `g1 = 100 >
p2 = 80` with different owners, and the step emits leg two's full 40 output
against `80 * quality` input. -/
theorem calc_clamped_leg_one_different_owner_step_witness :
    c1LegOne.Account ≠ c1LegTwo.Account ∧
    getOfferTakerPaysFunded c1LegTwo < getOfferTakerGetsFunded c1LegOne ∧
    (calcStep exCfg (initState [c1LegOne] [c1LegTwo])).1 =
      some (formatAutobridgedOffer exCfg (getOfferTakerGetsFunded c1LegTwo)
        (getOfferTakerPaysFunded c1LegTwo *
          getOfferQuality c1LegOne exCfg.currencyGets)) := by
  refine ⟨by decide, by decide, ?_⟩
  have h := calc_clamped_leg_one_different_owner_step exCfg
    (initState [c1LegOne] [c1LegTwo]) c1LegOne c1LegTwo c1LegOne
    (by decide) (by decide) rfl rfl (by decide) (by decide)
    (by decide) (by decide) (by decide)
  rw [h.1]

/-- C2: in every `calculate()` iteration where both current offers are live,
`g1` and `p2` are both nonzero, and `p2 > g1`, the engine emits a composite
offer with `takerGets` equal to `g1` divided by leg two's quality and
`takerPays` equal to leg one's full funded taker-pays, reduces leg two's
`takerGetsFunded` by the computed taker-gets and leg two's
`takerPaysFunded` by `g1` (the leg-two pointer stays), and advances only
the leg-one pointer. -/
theorem calc_clamped_leg_two_step (cfg : Config) (s : LoopState)
    (L1 L2 L1' : Offer)
    (hi : s.i < s.st.legOne.length) (hj : s.j < s.st.legTwo.length)
    (hL1 : s.st.legOne.getD s.i default = L1)
    (hL2 : s.st.legTwo.getD s.j default = L2)
    (hL1' : (applyFundingPrep cfg s.st s.i L1 L2).legOne.getD s.i default
      = L1')
    (hg1 : getOfferTakerGetsFunded L1' ≠ 0)
    (hp2 : getOfferTakerPaysFunded L2 ≠ 0)
    (hlt : getOfferTakerGetsFunded L1' < getOfferTakerPaysFunded L2) :
    calcStep cfg s =
      (some (formatAutobridgedOffer cfg
          (getOfferTakerGetsFunded L1' /
            getOfferQuality L2 cfg.currencyGets)
          (getOfferTakerPaysFunded L1')),
       ⟨{ applyFundingPrep cfg s.st s.i L1 L2 with
            legTwo := (applyFundingPrep cfg s.st s.i L1 L2).legTwo.set s.j
              { L2 with
                taker_gets_funded := getOfferTakerGetsFunded L2 -
                  getOfferTakerGetsFunded L1' /
                    getOfferQuality L2 cfg.currencyGets
                taker_pays_funded := getOfferTakerPaysFunded L2 -
                  getOfferTakerGetsFunded L1' } },
        s.i + 1, s.j⟩) := by
  unfold calcStep
  rw [if_pos ⟨hi, hj⟩]
  dsimp only
  rw [hL1, hL2, hL1']
  rw [if_neg hg1, if_neg hp2, if_neg (not_lt.mpr (le_of_lt hlt)),
    if_pos hlt]
  unfold getAutobridgedOfferWithClampedLegTwo
  dsimp only

/-- Witness for C2 at a concrete input: `ann` sells 30 bridge (fully
funded), `ben` wants 100 bridge for 50 output, so `p2 = 100 > g1 = 30`; the
step emits `30 / quality(L2) = 15` output against `ann`'s full 15 input and
advances only the leg-one pointer. -/
theorem calc_clamped_leg_two_step_witness :
    getOfferTakerGetsFunded c2LegOne < getOfferTakerPaysFunded c2LegTwo ∧
    (calcStep exCfg (initState [c2LegOne] [c2LegTwo])).1 =
      some (formatAutobridgedOffer exCfg
        (getOfferTakerGetsFunded c2LegOne /
          getOfferQuality c2LegTwo exCfg.currencyGets)
        (getOfferTakerPaysFunded c2LegOne)) := by
  refine ⟨by decide, ?_⟩
  have h := calc_clamped_leg_two_step exCfg
    (initState [c2LegOne] [c2LegTwo]) c2LegOne c2LegTwo c2LegOne
    (by decide) (by decide) rfl rfl (by decide) (by decide)
    (by decide) (by decide)
  rw [h]

/-- C9: in every `calculate()` iteration where both current offers are
live and leg one's funded bridge output `g1` equals leg two's funded bridge
input `p2` exactly (exact-value comparison), the engine emits a composite
offer with `takerGets` equal to leg two's funded taker-gets and `takerPays`
equal to leg one's funded taker-pays and advances both pointers; in
particular, on the spec's equal-case scenario input `calculate()` returns
exactly one offer with taker-gets 40 output, taker-pays 50 input and
quality `5/4 = 1.25`, the loop ending with both lists exhausted. -/
theorem calc_equal_case_step_and_scenario :
    (∀ (cfg : Config) (s : LoopState) (L1 L2 L1' : Offer),
      s.i < s.st.legOne.length → s.j < s.st.legTwo.length →
      s.st.legOne.getD s.i default = L1 →
      s.st.legTwo.getD s.j default = L2 →
      (applyFundingPrep cfg s.st s.i L1 L2).legOne.getD s.i default = L1' →
      getOfferTakerGetsFunded L1' ≠ 0 →
      getOfferTakerPaysFunded L2 ≠ 0 →
      getOfferTakerGetsFunded L1' = getOfferTakerPaysFunded L2 →
      calcStep cfg s =
        (some (formatAutobridgedOffer cfg (getOfferTakerGetsFunded L2)
            (getOfferTakerPaysFunded L1')),
         ⟨applyFundingPrep cfg s.st s.i L1 L2, s.i + 1, s.j + 1⟩)) ∧
    calculate exCfg [c9LegOne] [c9LegTwo] = [c9Expected] ∧
    c9Expected.takerGetsValue = 40 ∧ c9Expected.takerPaysValue = 50 ∧
    c9Expected.quality = 5 / 4 := by
  refine ⟨?_, rfl, rfl, rfl, ?_⟩
  · intro cfg s L1 L2 L1' hi hj hL1 hL2 hL1' hg1 hp2 heq
    unfold calcStep
    rw [if_pos ⟨hi, hj⟩]
    dsimp only
    rw [hL1, hL2, hL1']
    rw [if_neg hg1, if_neg hp2, if_neg (not_lt.mpr (le_of_eq heq)),
      if_neg (not_lt.mpr (ge_of_eq heq))]
    rfl
  · norm_num [c9Expected, formatAutobridgedOffer]

/-- Witness for C9's universal part at the scenario input itself: `g1 =
p2 = 100`, the step emits leg two's funded 40 output against leg one's
funded 50 input. -/
theorem calc_equal_case_step_and_scenario_witness :
    getOfferTakerGetsFunded c9LegOne = getOfferTakerPaysFunded c9LegTwo ∧
    (calcStep exCfg (initState [c9LegOne] [c9LegTwo])).1 =
      some (formatAutobridgedOffer exCfg (getOfferTakerGetsFunded c9LegTwo)
        (getOfferTakerPaysFunded c9LegOne)) := by
  refine ⟨by decide, ?_⟩
  have h := calc_equal_case_step_and_scenario.1 exCfg
    (initState [c9LegOne] [c9LegTwo]) c9LegOne c9LegTwo c9LegOne
    (by decide) (by decide) rfl rfl (by decide) (by decide)
    (by decide) (by decide)
  rw [h]

/-- C10: in every same-owner iteration where leg one's funded bridge output
strictly exceeds leg two's funded bridge input, the reduction of leg one's
nominal amounts leaves the offer in a mixed representation: the nominal
`TakerGets` field holds the reduced amount's canonical text form
(`JVal.jstr`), while the nominal `TakerPays` field holds the raw
product-of-quality `Amount` object (`JVal.jamt`) without text
serialization; this is the offer kept for subsequent iterations. -/
theorem same_owner_reduction_mixed_representation (cfg : Config)
    (lf : Leftover) (L1 L2 : Offer)
    (hacct : L1.Account = L2.Account)
    (hgt : getOfferTakerPaysFunded L2 < getOfferTakerGetsFunded L1) :
    ((getAutobridgedOfferWithClampedLegOne cfg lf L1 L2).2.1).TakerGets =
      JVal.jstr (getOfferTakerGets L1 - getOfferTakerPaysFunded L2) ∧
    ((getAutobridgedOfferWithClampedLegOne cfg lf L1 L2).2.1).TakerPays =
      JVal.jamt ((getOfferTakerGets L1 - getOfferTakerPaysFunded L2) *
        getOfferQuality L1 cfg.currencyGets) := by
  unfold getAutobridgedOfferWithClampedLegOne
  dsimp only
  rw [if_pos hacct]
  dsimp only
  constructor
  · rw [clampLegOneOwnerFunds_fst_TakerGets]
    rfl
  · rw [clampLegOneOwnerFunds_fst_TakerPays]
    rfl

/-- Witness for C10 at a concrete input: `henry` trades with himself,
`g1 = 100 > p2 = 60`; the surviving leg-one offer stores nominal taker-gets
`40` as text and nominal taker-pays `40 * quality` as a raw amount
object. -/
theorem same_owner_reduction_mixed_representation_witness :
    c10LegOne.Account = c10LegTwo.Account ∧
    getOfferTakerPaysFunded c10LegTwo < getOfferTakerGetsFunded c10LegOne ∧
    ((getAutobridgedOfferWithClampedLegOne exCfg c10lf c10LegOne
        c10LegTwo).2.1).TakerGets =
      JVal.jstr (getOfferTakerGets c10LegOne -
        getOfferTakerPaysFunded c10LegTwo) ∧
    ((getAutobridgedOfferWithClampedLegOne exCfg c10lf c10LegOne
        c10LegTwo).2.1).TakerPays =
      JVal.jamt ((getOfferTakerGets c10LegOne -
        getOfferTakerPaysFunded c10LegTwo) *
        getOfferQuality c10LegOne exCfg.currencyGets) := by
  have h := same_owner_reduction_mixed_representation exCfg c10lf
    c10LegOne c10LegTwo (by decide) (by decide)
  exact ⟨by decide, by decide, h.1, h.2⟩

/-- C3 (code defect, evaluated at the failing input): `c3Offer` is a valid
leg-one offer, fully funded at its nominal 100 with `is_fully_funded =
true`.  Calling `setLegOneTakerGetsFunded` with 60 reduces the funded
amount strictly below the nominal taker-gets and correctly derives
`taker_pays_funded = 60 * quality`, yet leaves `is_fully_funded = true`:
the source only ever sets the flag to `true` (there is no `else` branch),
and its guard compares the funded text against `TakerGets.value`, a
property that is `undefined` on the numeric `TakerGets` the offer shape
assertion demands, so the flag can never track the funded amount. -/
theorem set_leg_one_taker_gets_funded_flag_stale :
    isValidLegOneOffer c3Offer = true ∧
    c3Offer.is_fully_funded = true ∧
    (setLegOneTakerGetsFunded exCfg c3Offer 60).taker_gets_funded = 60 ∧
    (setLegOneTakerGetsFunded exCfg c3Offer 60).taker_pays_funded =
      60 * getOfferQuality c3Offer exCfg.currencyGets ∧
    (setLegOneTakerGetsFunded exCfg c3Offer 60).taker_gets_funded <
      getOfferTakerGets (setLegOneTakerGetsFunded exCfg c3Offer 60) ∧
    (setLegOneTakerGetsFunded exCfg c3Offer 60).is_fully_funded = true ∧
    c3Offer.TakerGets.valueProp = none := by
  refine ⟨by decide, by decide, by decide, ?_, by decide, by decide,
    by decide⟩
  rw [setLegOneTakerGetsFunded_tpf]

/-- C4: for every engine configuration and every composite offer emitted by
`calculate()`, the emitted offer's taker-gets side carries the configured
output issuer and its taker-pays side the configured input issuer. -/
theorem autobridged_offer_issuers (cfg : Config)
    (legOneOffers legTwoOffers : List Offer) (ab : AutobridgedOffer)
    (hab : ab ∈ calculate cfg legOneOffers legTwoOffers) :
    ab.takerGetsIssuer = cfg.issuerGets ∧
    ab.takerPaysIssuer = cfg.issuerPays := by
  obtain ⟨g, p, rfl⟩ := calcLoopAux_mem_format cfg _ _ ab hab
  exact ⟨rfl, rfl⟩

/-- The single composite offer emitted on the C4 witness input (an
equal-funded pair owned by `carol` and `dave`). -/
def c4Out : AutobridgedOffer :=
  formatAutobridgedOffer exCfg (getOfferTakerGetsFunded c4LegTwo)
    (getOfferTakerPaysFunded c4LegOne)

/-- Witness for C4 at a concrete input: the emitted offer carries
`issuerOut` on the gets side and `issuerIn` on the pays side. -/
theorem autobridged_offer_issuers_witness :
    c4Out ∈ calculate exCfg [c4LegOne] [c4LegTwo] ∧
    c4Out.takerGetsIssuer = exCfg.issuerGets ∧
    c4Out.takerPaysIssuer = exCfg.issuerPays := by
  have hcalc : calculate exCfg [c4LegOne] [c4LegTwo] = [c4Out] := rfl
  have hmem : c4Out ∈ calculate exCfg [c4LegOne] [c4LegTwo] := by
    rw [hcalc]
    exact List.mem_singleton_self _
  exact ⟨hmem, autobridged_offer_issuers exCfg [c4LegOne] [c4LegTwo]
    c4Out hmem⟩

/-- C5: whenever clamp-reconcile runs on a leg-one offer carrying an
`initTakerGetsFunded` snapshot, then: if the (reduced) nominal taker-gets
is at least the snapshot, the funded amount is restored to the snapshot and
every leftover ledger value is unchanged; otherwise the funded amount is
set to the nominal taker-gets and exactly `initFunded - takerGets` is added
to the owner's leftover entry, all other entries unchanged. -/
theorem clamp_reconcile_behavior (cfg : Config) (lf : Leftover) (o : Offer)
    (init : ℚ) (hinit : o.initTakerGetsFunded = some init) :
    (init ≤ getOfferTakerGets o →
      (clampLegOneOwnerFunds cfg lf o).1.taker_gets_funded = init ∧
      ∀ a, (clampLegOneOwnerFunds cfg lf o).2 a = lf a) ∧
    (getOfferTakerGets o < init →
      (clampLegOneOwnerFunds cfg lf o).1.taker_gets_funded =
        getOfferTakerGets o ∧
      (clampLegOneOwnerFunds cfg lf o).2 o.Account =
        lf o.Account + (init - getOfferTakerGets o) ∧
      ∀ a, a ≠ o.Account → (clampLegOneOwnerFunds cfg lf o).2 a = lf a) := by
  unfold clampLegOneOwnerFunds
  rw [hinit]
  dsimp only [Option.getD_some]
  split
  · rename_i hlt
    constructor
    · intro _
      exact ⟨setLegOneTakerGetsFunded_tgf cfg o init, fun a => rfl⟩
    · intro hcontra
      exact absurd hcontra (not_lt.mpr (le_of_lt hlt))
  · rename_i hge
    have hle : getOfferTakerGets o ≤ init := not_lt.mp hge
    constructor
    · intro hinit_le
      have heq : getOfferTakerGets o = init := le_antisymm hle hinit_le
      refine ⟨by rw [setLegOneTakerGetsFunded_tgf, heq], fun a => ?_⟩
      dsimp only
      rw [Function.update_apply]
      split
      · rename_i ha
        subst ha
        rw [heq]
        ring
      · rfl
    · intro hlt
      refine ⟨setLegOneTakerGetsFunded_tgf cfg o _, ?_, fun a ha => ?_⟩
      · dsimp only
        rw [Function.update_same]
      · dsimp only
        rw [Function.update_apply, if_neg ha]

/-- Witness for C5 at a concrete input: `erin`'s offer was reduced to a
nominal 20 below its snapshot 30, so the funded amount is clamped to 20 and
`30 - 20 = 10` is credited to `erin`'s leftover, with `frank`'s entry
unchanged. -/
theorem clamp_reconcile_behavior_witness :
    getOfferTakerGets c5Offer < 30 ∧
    (clampLegOneOwnerFunds exCfg c5lf c5Offer).1.taker_gets_funded =
      getOfferTakerGets c5Offer ∧
    (clampLegOneOwnerFunds exCfg c5lf c5Offer).2 c5Offer.Account =
      c5lf c5Offer.Account + (30 - getOfferTakerGets c5Offer) ∧
    (clampLegOneOwnerFunds exCfg c5lf c5Offer).2 "frank" = c5lf "frank" := by
  have h := (clamp_reconcile_behavior exCfg c5lf c5Offer 30 rfl).2
    (by decide)
  exact ⟨by decide, h.1, h.2.1, h.2.2 "frank" (by decide)⟩

/-- C6: whenever top-up runs on a not-fully-funded leg-one offer whose
owner holds positive leftover funds, with `sum = takerGetsFunded +
leftover`: if `sum` covers the nominal taker-gets the offer is fully funded
and the owner's leftover becomes `sum - takerGets`, otherwise the funded
amount becomes `sum` and the owner's leftover becomes zero. -/
theorem topup_behavior (cfg : Config) (lf : Leftover) (o : Offer)
    (hff : o.is_fully_funded = false) (hpos : 0 < lf o.Account) :
    (getOfferTakerGets o ≤ getOfferTakerGetsFunded o + lf o.Account →
      (adjustLegOneFundedAmount cfg lf o).1.taker_gets_funded =
        getOfferTakerGets o ∧
      (adjustLegOneFundedAmount cfg lf o).2 o.Account =
        getOfferTakerGetsFunded o + lf o.Account - getOfferTakerGets o) ∧
    (getOfferTakerGetsFunded o + lf o.Account < getOfferTakerGets o →
      (adjustLegOneFundedAmount cfg lf o).1.taker_gets_funded =
        getOfferTakerGetsFunded o + lf o.Account ∧
      (adjustLegOneFundedAmount cfg lf o).2 o.Account = 0) := by
  unfold adjustLegOneFundedAmount
  dsimp only
  split
  · rename_i hge
    constructor
    · intro _
      exact ⟨setLegOneTakerGetsFunded_tgf cfg o _, by
        dsimp only
        rw [Function.update_same]⟩
    · intro hcontra
      exact absurd hge (not_le.mpr hcontra)
  · rename_i hlt
    constructor
    · intro hcontra
      exact absurd hcontra hlt
    · intro _
      exact ⟨setLegOneTakerGetsFunded_tgf cfg o _, by
        dsimp only
        rw [Function.update_same]⟩

/-- Witness for C6 at a concrete input: `gina`'s offer is funded 10 of 50
and her leftover is 60, so `sum = 70 ≥ 50`; the offer becomes fully funded
at 50 and the leftover drops to 20. -/
theorem topup_behavior_witness :
    c6Offer.is_fully_funded = false ∧
    0 < c6lf c6Offer.Account ∧
    getOfferTakerGets c6Offer ≤
      getOfferTakerGetsFunded c6Offer + c6lf c6Offer.Account ∧
    (adjustLegOneFundedAmount exCfg c6lf c6Offer).1.taker_gets_funded =
      getOfferTakerGets c6Offer ∧
    (adjustLegOneFundedAmount exCfg c6lf c6Offer).2 c6Offer.Account =
      getOfferTakerGetsFunded c6Offer + c6lf c6Offer.Account -
        getOfferTakerGets c6Offer := by
  have hsum : getOfferTakerGets c6Offer ≤
      getOfferTakerGetsFunded c6Offer + c6lf c6Offer.Account := by
    norm_num [getOfferTakerGets, getOfferTakerGetsFunded, c6Offer, c6lf,
      JVal.amountVal]
  have h := (topup_behavior exCfg c6lf c6Offer (by decide) (by decide)).1
    hsum
  exact ⟨by decide, by decide, hsum, h.1, h.2⟩

/-- C7: the leftover-funds ledger is non-negative at every point of every
`calculate()` run: entries start at zero when the ledger is cleared, stay
non-negative after every loop iteration (stated for every iterate of the
step function from the cleared initial state), clamp-reconcile only ever
increases an entry (by a non-negative difference), and top-up leaves the
owner's entry at a non-negative remainder or at zero. -/
theorem leftover_ledger_nonnegative :
    (∀ (legOneOffers legTwoOffers : List Offer) (a : String),
      (initState legOneOffers legTwoOffers).st.leftover a = 0) ∧
    (∀ (cfg : Config) (legOneOffers legTwoOffers : List Offer) (k : ℕ)
      (a : String),
      0 ≤ ((fun t => (calcStep cfg t).2)^[k]
        (initState legOneOffers legTwoOffers)).st.leftover a) ∧
    (∀ (cfg : Config) (lf : Leftover) (o : Offer) (a : String),
      lf a ≤ (clampLegOneOwnerFunds cfg lf o).2 a) ∧
    (∀ (cfg : Config) (lf : Leftover) (o : Offer),
      0 ≤ (adjustLegOneFundedAmount cfg lf o).2 o.Account) := by
  refine ⟨fun _ _ _ => rfl, ?_, ?_, ?_⟩
  · intro cfg legOneOffers legTwoOffers k
    induction k with
    | zero => exact fun a => le_refl 0
    | succ k ih =>
      intro a
      rw [Function.iterate_succ_apply']
      exact calcStep_leftover_nonneg cfg _ ih a
  · exact clampLegOneOwnerFunds_leftover_mono
  · intro cfg lf o
    unfold adjustLegOneFundedAmount
    dsimp only
    split
    · rename_i hge
      dsimp only
      rw [Function.update_same]
      exact sub_nonneg.mpr hge
    · dsimp only
      rw [Function.update_same]

/-- C8: `calculate()` terminates with a finite output for every pair of
input lists: at most `n + m` offers are emitted (each loop iteration emits
at most one and strictly advances a pointer), the loop ends as soon as
either leg is exhausted with nothing further emitted, every in-range step
keeps both pointers non-decreasing and strictly advances their sum, and any
fuel of at least `n + m` iterations yields the same output as
`calculate()`. -/
theorem calculate_terminates_bounded :
    (∀ (cfg : Config) (legOneOffers legTwoOffers : List Offer),
      (calculate cfg legOneOffers legTwoOffers).length ≤
        legOneOffers.length + legTwoOffers.length) ∧
    (∀ (cfg : Config) (fuel : ℕ) (s : LoopState),
      s.st.legOne.length ≤ s.i ∨ s.st.legTwo.length ≤ s.j →
      calcLoopAux cfg fuel s = []) ∧
    (∀ (cfg : Config) (s : LoopState),
      s.i < s.st.legOne.length ∧ s.j < s.st.legTwo.length →
      s.i ≤ ((calcStep cfg s).2).i ∧ s.j ≤ ((calcStep cfg s).2).j ∧
        s.i + s.j < ((calcStep cfg s).2).i + ((calcStep cfg s).2).j) ∧
    (∀ (cfg : Config) (fuel : ℕ) (legOneOffers legTwoOffers : List Offer),
      legOneOffers.length + legTwoOffers.length ≤ fuel →
      calcLoopAux cfg fuel (initState legOneOffers legTwoOffers) =
        calculate cfg legOneOffers legTwoOffers) := by
  refine ⟨?_, calcLoopAux_exhausted, calcStep_pointers, ?_⟩
  · intro cfg legOneOffers legTwoOffers
    have h := calcLoopAux_length_le cfg
      (legOneOffers.length + legTwoOffers.length)
      (initState legOneOffers legTwoOffers)
    simpa [initState, calculate] using h
  · intro cfg fuel legOneOffers legTwoOffers hfuel
    exact calcLoopAux_fuel_irrelevant cfg fuel
      (legOneOffers.length + legTwoOffers.length)
      (initState legOneOffers legTwoOffers) (by simpa [initState] using hfuel)
      (by simp [initState])

/-- Witness for C8 at concrete inputs: with an empty leg-one list the loop
emits nothing regardless of fuel, and on a live pair the step strictly
advances the pointer sum. -/
theorem calculate_terminates_bounded_witness :
    (initState [] [c8Offer]).st.legOne.length ≤ (initState [] [c8Offer]).i ∧
    calcLoopAux exCfg 5 (initState [] [c8Offer]) = [] ∧
    (initState [c1LegOne] [c8Offer]).i <
        (initState [c1LegOne] [c8Offer]).st.legOne.length ∧
    (initState [c1LegOne] [c8Offer]).j <
        (initState [c1LegOne] [c8Offer]).st.legTwo.length ∧
    (initState [c1LegOne] [c8Offer]).i + (initState [c1LegOne] [c8Offer]).j <
      ((calcStep exCfg (initState [c1LegOne] [c8Offer])).2).i +
        ((calcStep exCfg (initState [c1LegOne] [c8Offer])).2).j := by
  refine ⟨by decide, ?_, by decide, by decide, ?_⟩
  · exact calculate_terminates_bounded.2.1 exCfg 5 _ (Or.inl (by decide))
  · exact (calculate_terminates_bounded.2.2.1 exCfg _
      ⟨by decide, by decide⟩).2.2

end Autobridge
